import Mathlib

/-!
Verification development for the SolarApp inventory subsystem.

The repository ships a React frontend (under `frontend/src`) and deployment
tooling; the FastAPI backend that implements the stock ledger, the purchase
reconciliation endpoints and the XML invoice parser is referenced by the
frontend API client (`frontend/src/services/api.js`) and by the repository
documentation (`IMPLEMENTATION_SUMMARY.md`, `GUI_FEATURES.md`) but its source
is not part of this tree.  Backend behaviour is therefore modelled from the
specification; frontend behaviour (the allocation form, the stock movement
form, the purchase details page) is embedded directly from the JSX source.

Numeric fields (quantities, prices) are JavaScript numbers in the source; they
are modelled as rationals, with `Option` capturing `NaN` results of
`parseFloat`/`parseInt`.
-/

namespace SolarApp

/-! ## Stock ledger (spec-modelled) -/

/-- A (material, location) pair: the key of a derived `Stock` balance row. -/
structure MovementKey where
  material_id : Nat
  location : Nat
deriving DecidableEq, Repr

/-- The four movement types of `StockMovement.movement_type`
(`'in' | 'out' | 'adjustment' | 'transfer'` in the source;
`in`/`out` are Lean keywords, hence the trailing underscores). -/
inductive MovementType
  | in_
  | out_
  | adjustment
  | transfer
deriving DecidableEq, Repr

/-- Modelled from the spec: a `StockMovement` request as posted to the ledger
(section 3 of the spec; the backend ledger code is absent from the tree).
`to_location` is only meaningful for `transfer`. -/
structure StockMovement where
  material_id : Nat
  location : Nat
  movement_type : MovementType
  quantity : ℚ
  to_location : Nat
deriving DecidableEq, Repr

/-- Errors of the ledger `Post` operation (spec section 7). -/
inductive LedgerError
  | insufficientStock
  | validationError
deriving DecidableEq, Repr

/-- Modelled from the spec: the ledger state — the derived `Stock.quantity`
balance per (material, location) plus the append-only journal of committed
movements, stored as the effective signed delta of each movement
(newest first). -/
structure LedgerState where
  balances : MovementKey → ℚ
  journal : List (MovementKey × ℚ)

/-- Pointwise update of a balance table at one key. -/
def setBal (f : MovementKey → ℚ) (k : MovementKey) (v : ℚ) : MovementKey → ℚ :=
  fun k2 => if k2 = k then v else f k2

/-- Modelled from the spec: the ledger `Post` operation of section 4.4 (the
backend `POST /api/v1/stock/movement` handler is absent from the tree).
Non-positive quantities are rejected as `ValidationError` (spec section 7; the
frontend movement form enforces `min 0.01` for every type).  `in` adds,
`out` subtracts and is rejected when it would drive the balance negative,
`adjustment` sets the balance to the given value and journals the delta
actually applied, `transfer` debits one location and credits another as two
linked journal entries, with the debit subject to the negative-stock guard. -/
def Post (s : LedgerState) (m : StockMovement) : Except LedgerError LedgerState :=
  if m.quantity ≤ 0 then .error .validationError else
  match m.movement_type with
  | .in_ =>
      .ok ⟨setBal s.balances ⟨m.material_id, m.location⟩
             (s.balances ⟨m.material_id, m.location⟩ + m.quantity),
           (⟨m.material_id, m.location⟩, m.quantity) :: s.journal⟩
  | .out_ =>
      if s.balances ⟨m.material_id, m.location⟩ < m.quantity then
        .error .insufficientStock
      else
        .ok ⟨setBal s.balances ⟨m.material_id, m.location⟩
               (s.balances ⟨m.material_id, m.location⟩ - m.quantity),
             (⟨m.material_id, m.location⟩, -m.quantity) :: s.journal⟩
  | .adjustment =>
      .ok ⟨setBal s.balances ⟨m.material_id, m.location⟩ m.quantity,
           (⟨m.material_id, m.location⟩,
            m.quantity - s.balances ⟨m.material_id, m.location⟩) :: s.journal⟩
  | .transfer =>
      if s.balances ⟨m.material_id, m.location⟩ < m.quantity then
        .error .insufficientStock
      else
        .ok ⟨setBal (setBal s.balances ⟨m.material_id, m.location⟩
                       (s.balances ⟨m.material_id, m.location⟩ - m.quantity))
               ⟨m.material_id, m.to_location⟩
               (setBal s.balances ⟨m.material_id, m.location⟩
                  (s.balances ⟨m.material_id, m.location⟩ - m.quantity)
                  ⟨m.material_id, m.to_location⟩
                + m.quantity),
             (⟨m.material_id, m.to_location⟩, m.quantity)
               :: (⟨m.material_id, m.location⟩, -m.quantity) :: s.journal⟩

/-- The ledger with no movements and zero balances. -/
def emptyLedger : LedgerState := ⟨fun _ => 0, []⟩

/-- Run a sequence of `Post` calls; a failed post commits nothing and the
sequence continues from the unchanged state. -/
def postAll (s : LedgerState) : List StockMovement → LedgerState
  | [] => s
  | m :: ms =>
      match Post s m with
      | .ok s2 => postAll s2 ms
      | .error _ => postAll s ms

/-- The signed sum of the journalled effective deltas for one
(material, location) pair. -/
def journalSum (j : List (MovementKey × ℚ)) (k : MovementKey) : ℚ :=
  j.foldr (fun e acc => (if e.1 = k then e.2 else 0) + acc) 0

/-- Ledger conservation: every derived balance equals the signed sum of the
journalled deltas for its pair. -/
def conserves (s : LedgerState) : Prop :=
  ∀ k, s.balances k = journalSum s.journal k

/-! ## Material reconciliation (spec-modelled) -/

/-- Errors of the reconciliation operations (spec section 7). -/
inductive RecError
  | notFound
  | alreadyReconciled
  | duplicateSKU
  | ledgerFailure (e : LedgerError)
deriving DecidableEq, Repr

/-- A purchase item (spec section 3): `material_id = none` means not yet
reconciled. -/
structure PurchaseItem where
  description : String
  sku : Option String
  quantity : ℚ
  unit_price : ℚ
  material_id : Option Nat
deriving DecidableEq, Repr

/-- A catalog material (spec section 3), reduced to the fields the
reconciliation claims touch. -/
structure Material where
  id : Nat
  sku : String
  name : String
  unit_price : ℚ
deriving DecidableEq, Repr

/-- The material fields supplied to `CreateAndLink`. -/
structure MaterialDraft where
  sku : String
  name : String
  unit_price : ℚ
deriving DecidableEq, Repr

/-- The single stock location used by the backend endpoints reachable from the
frontend (the movement form posts no location field). -/
def defaultLocation : Nat := 0

/-- Modelled from the spec: the persistent state the reconciliation endpoints
act on — purchase items keyed by id, the material catalog, a fresh-id counter
for created materials, and the stock ledger. -/
structure SysState where
  items : Nat → Option PurchaseItem
  materials : List Material
  nextMaterialId : Nat
  ledger : LedgerState

/-- Update the item table at one id. -/
def setItem (items : Nat → Option PurchaseItem) (i : Nat) (it : PurchaseItem) :
    Nat → Option PurchaseItem :=
  fun n => if n = i then some it else items n

/-- Modelled from the spec: `LinkExisting(itemId, materialId)` of section 4.3
(the backend `add-to-stock` endpoint is absent from the tree): validates the
item exists and is unlinked and the material exists, sets
`PurchaseItem.material_id`, posts an `in` movement of `item.quantity`. -/
def LinkExisting (s : SysState) (itemId : Nat) (matId : Nat) : Except RecError SysState :=
  match s.items itemId with
  | none => .error .notFound
  | some it =>
      if it.material_id.isSome then .error .alreadyReconciled
      else if (s.materials.find? (fun m => m.id = matId)).isNone then .error .notFound
      else
        match Post s.ledger ⟨matId, defaultLocation, .in_, it.quantity, defaultLocation⟩ with
        | .error e => .error (.ledgerFailure e)
        | .ok led =>
            .ok ⟨setItem s.items itemId { it with material_id := some matId },
                 s.materials, s.nextMaterialId, led⟩

/-- Modelled from the spec: `CreateAndLink(itemId, materialDraft)` of section
4.3 (the backend `create-material` endpoint is absent from the tree): validates
the item exists and is unlinked and the draft SKU is fresh, creates the
material, sets `PurchaseItem.material_id`, and posts an `in` movement of
`item.quantity` so the new material's stock is seeded from the purchase
quantity (invariant 5; `IMPLEMENTATION_SUMMARY.md` records the fix from the
earlier zero-seeding bug). -/
def CreateAndLink (s : SysState) (itemId : Nat) (draft : MaterialDraft) :
    Except RecError (SysState × Nat) :=
  match s.items itemId with
  | none => .error .notFound
  | some it =>
      if it.material_id.isSome then .error .alreadyReconciled
      else if s.materials.any (fun m => m.sku = draft.sku) then .error .duplicateSKU
      else
        match Post s.ledger
            ⟨s.nextMaterialId, defaultLocation, .in_, it.quantity, defaultLocation⟩ with
        | .error e => .error (.ledgerFailure e)
        | .ok led =>
            .ok (⟨setItem s.items itemId { it with material_id := some s.nextMaterialId },
                  s.materials ++ [⟨s.nextMaterialId, draft.sku, draft.name, draft.unit_price⟩],
                  s.nextMaterialId + 1, led⟩, s.nextMaterialId)

/-- The operations that write the reconciliation state or the ledger. -/
inductive SysOp
  | link (itemId matId : Nat)
  | createLink (itemId : Nat) (draft : MaterialDraft)
  | postMovement (m : StockMovement)

/-- Apply one operation; a failed operation leaves the state unchanged. -/
def stepOp (s : SysState) : SysOp → SysState
  | .link itemId matId =>
      match LinkExisting s itemId matId with
      | .ok s2 => s2
      | .error _ => s
  | .createLink itemId draft =>
      match CreateAndLink s itemId draft with
      | .ok r => r.1
      | .error _ => s
  | .postMovement m =>
      match Post s.ledger m with
      | .ok led => ⟨s.items, s.materials, s.nextMaterialId, led⟩
      | .error _ => s

/-- Run a sequence of operations. -/
def runOps (s : SysState) : List SysOp → SysState
  | [] => s
  | op :: ops => runOps (stepOp s op) ops

/-! ## Invoice parser (spec-modelled)

The XML parser runs as a separate backend service whose source is absent from
the tree; it is modelled from spec section 4.1 as a pure total function from
the raw input bytes to a `ParsedInvoice` or a typed `ParseError`, over a
simplified tag vocabulary.  Text fields are kept as raw byte lists. -/

/-- A parsed invoice line item (spec section 4.1); `sku` is optional and
defaults to `none` rather than failing the document. -/
structure LineItem where
  description : List Nat
  sku : Option (List Nat)
  quantity : ℚ
  unit_price : ℚ
  total_price : ℚ
deriving DecidableEq, Repr

/-- The parser's success output (spec section 4.1); `invoice_number` is
optional, `currency` is recorded verbatim. -/
structure ParsedInvoice where
  supplier : List Nat
  invoice_number : Option (List Nat)
  currency : List Nat
  total_amount : ℚ
  items : List LineItem
deriving DecidableEq, Repr

/-- A typed parse failure (spec section 4.1). -/
structure ParseError where
  reason : String
deriving DecidableEq, Repr

/-- The byte values of a string (ASCII code points). -/
def bytesOf (s : String) : List Nat :=
  s.toList.map Char.toNat

/-- Index of the first occurrence of `pat` in the byte list, if any. -/
def findSub (pat : List Nat) : List Nat → Option Nat
  | [] => if pat.isEmpty then some 0 else none
  | a :: t =>
      if pat.isPrefixOf (a :: t) then some 0
      else (findSub pat t).map (fun n => n + 1)

/-- The bytes strictly between the first occurrence of `openTag` and the next
occurrence of `closeTag`, if both are present. -/
def extractBetween (bytes openTag closeTag : List Nat) : Option (List Nat) :=
  match findSub openTag bytes with
  | none => none
  | some i =>
      match findSub closeTag (bytes.drop (i + openTag.length)) with
      | none => none
      | some j => some ((bytes.drop (i + openTag.length)).take j)

/-- Opening tag bytes for a tag name. -/
def tagOpen (t : String) : List Nat := bytesOf ("<" ++ t ++ ">")

/-- Closing tag bytes for a tag name. -/
def tagClose (t : String) : List Nat := bytesOf ("</" ++ t ++ ">")

/-- The content of the first occurrence of tag `t` in the document. -/
def extractTag (bytes : List Nat) (t : String) : Option (List Nat) :=
  extractBetween bytes (tagOpen t) (tagClose t)

/-- Parse a run of ASCII digit bytes into a natural number; any non-digit byte
or an empty run fails. -/
def digitsToNat (l : List Nat) : Option Nat :=
  if l.isEmpty then none
  else
    l.foldl
      (fun acc b =>
        acc.bind (fun n => if 48 ≤ b && b ≤ 57 then some (n * 10 + (b - 48)) else none))
      (some 0)

/-- Split the document into the contents of its `Item` elements, in order.
The fuel argument bounds the recursion by the document length. -/
def splitItems : Nat → List Nat → List (List Nat)
  | 0, _ => []
  | fuel + 1, bytes =>
      match findSub (tagOpen "Item") bytes with
      | none => []
      | some i =>
          match findSub (tagClose "Item") (bytes.drop (i + (tagOpen "Item").length)) with
          | none => []
          | some j =>
              (bytes.drop (i + (tagOpen "Item").length)).take j ::
                splitItems fuel
                  ((bytes.drop (i + (tagOpen "Item").length)).drop
                    (j + (tagClose "Item").length))

/-- Parse one line item chunk; quantity and prices are required, description
defaults to empty and sku to `none`. -/
def parseLineItem (chunk : List Nat) : Option LineItem :=
  match digitsToNat ((extractTag chunk "Quantity").getD [])
      , digitsToNat ((extractTag chunk "UnitPrice").getD [])
      , digitsToNat ((extractTag chunk "TotalPrice").getD []) with
  | some q, some u, some t =>
      some ⟨(extractTag chunk "Description").getD [], extractTag chunk "Sku",
            (q : ℚ), (u : ℚ), (t : ℚ)⟩
  | _, _, _ => none

/-- Modelled from the spec: the invoice parser of section 4.1 (the backend XML
parser service is absent from the tree).  A pure total function of the input
bytes alone: it fails with a typed `ParseError` when the supplier, a parseable
total, or at least one well-formed line item is missing, tolerates missing
optional fields, and touches no state. -/
def parseInvoice (bytes : List Nat) : Except ParseError ParsedInvoice :=
  match extractTag bytes "Supplier" with
  | none => .error ⟨"missing supplier"⟩
  | some sup =>
      match (extractTag bytes "Total").bind digitsToNat with
      | none => .error ⟨"missing or malformed total"⟩
      | some tot =>
          match splitItems bytes.length bytes with
          | [] => .error ⟨"no line items"⟩
          | chunks =>
              if (chunks.filterMap parseLineItem).length ≠ chunks.length then
                .error ⟨"malformed line item"⟩
              else
                .ok ⟨sup, extractTag bytes "InvoiceNumber",
                     (extractTag bytes "Currency").getD [], (tot : ℚ),
                     chunks.filterMap parseLineItem⟩

/-! ## Frontend allocation form
(embedded from `src/frontend/src/components/Stock/AllocateMaterialForm.jsx`) -/

/-- The `stockItem` prop of `AllocateMaterialForm`: the stock row being
allocated, as served by the backend (`acquisition_price` may be absent). -/
structure StockItem where
  material_id : Nat
  quantity : ℚ
  acquisition_price : Option ℚ
deriving DecidableEq, Repr

/-- A project row as listed by the allocation form's project query. -/
structure Project where
  id : Int
  name : String
  client_name : String
deriving DecidableEq, Repr

/-- The allocation form's field values after `parseInt`/`parseFloat`:
`none` models a `NaN` parse result. -/
structure AllocFormData where
  project_id : Option Int
  quantity : Option ℚ
  commercial_markup : Option ℚ
deriving DecidableEq, Repr

/-- JavaScript `x || y` on an optional number: `null`/`undefined` and `0` are
falsy, so both fall through to `y`. -/
def jsNumOr (x : Option ℚ) (y : ℚ) : ℚ :=
  match x with
  | some v => if v = 0 then y else v
  | none => y

/-- AllocateMaterialForm.jsx line 20:
`stockItem?.acquisition_price || materialData?.unit_price || 0`. -/
def acquisitionPrice (stockAcq : Option ℚ) (materialUnitPrice : Option ℚ) : ℚ :=
  jsNumOr stockAcq (jsNumOr materialUnitPrice 0)

/-- The body of the `projects.addMaterial` call issued by `allocateMutation`
(AllocateMaterialForm.jsx lines 63-69). -/
structure ProjectMaterialPayload where
  material_id : Nat
  quantity_planned : ℚ
  quantity_used : ℚ
  unit_price : ℚ
  project_id : Int
deriving DecidableEq, Repr

/-- The body of the `stock.createMovement` call issued by `allocateMutation`
(AllocateMaterialForm.jsx lines 72-79). -/
structure StockMovementPayload where
  material_id : Nat
  movement_type : MovementType
  quantity : ℚ
  reference_type : String
  reference_id : Int
  notes : String
deriving DecidableEq, Repr

/-- The two request bodies an allocation submission produces, in call order. -/
structure AllocRequest where
  addMaterialBody : ProjectMaterialPayload
  movementBody : StockMovementPayload
deriving DecidableEq, Repr

/-- The project name shown in the movement notes
(AllocateMaterialForm.jsx lines 59-60). -/
def projectNameFor (allProjects : List Project) (pid : Int) : String :=
  match allProjects.find? (fun p => p.id = pid) with
  | some p => p.name
  | none => "Unknown Project"

/-- AllocateMaterialForm.jsx lines 53-80 (`allocateMutation.mutationFn`):
computes `finalUnitPrice = acquisitionPrice * commercial_markup` and issues
`projects.addMaterial` with `quantity_planned = quantity`,
`quantity_used = 0`, `unit_price = finalUnitPrice`, then
`stock.createMovement` with an `out` movement of the same quantity
referencing the project. -/
def allocateMutation (stockItem : StockItem) (acqPrice : ℚ) (allProjects : List Project)
    (project_id : Int) (quantity : ℚ) (commercial_markup : ℚ) : AllocRequest :=
  ⟨⟨stockItem.material_id, quantity, 0, acqPrice * commercial_markup, project_id⟩,
   ⟨stockItem.material_id, .out_, quantity, "project", project_id,
    "Allocated to project: " ++ projectNameFor allProjects project_id⟩⟩

/-- Outcome of submitting the allocation form: a toast rejection or the
mutation's request pair. -/
inductive SubmitResult
  | rejected (msg : String)
  | submitted (req : AllocRequest)
deriving DecidableEq, Repr

/-- AllocateMaterialForm.jsx lines 93-122 (`onSubmit`): validates the parsed
project id, quantity (positive and not exceeding `stockItem.quantity`) and
markup (positive), in source order, then fires `allocateMutation`. -/
def onSubmit (stockItem : StockItem) (acqPrice : ℚ) (allProjects : List Project)
    (d : AllocFormData) : SubmitResult :=
  match d.project_id with
  | none => .rejected "Please select a valid project"
  | some projectId =>
      if projectId ≤ 0 then .rejected "Please select a valid project"
      else
        match d.quantity with
        | none => .rejected "Please enter a valid quantity"
        | some quantity =>
            if quantity ≤ 0 then .rejected "Please enter a valid quantity"
            else if stockItem.quantity < quantity then
              .rejected "Insufficient stock available"
            else
              match d.commercial_markup with
              | none => .rejected "Please enter a valid commercial markup"
              | some markup =>
                  if markup ≤ 0 then .rejected "Please enter a valid commercial markup"
                  else .submitted
                    (allocateMutation stockItem acqPrice allProjects projectId quantity markup)

/-! ## Backend effect of an allocation submission

`allocateMutation` issues two separate HTTP requests in sequence; each is its
own backend transaction.  The backend handlers are absent from the tree and
are modelled from the spec: `projects.addMaterial` inserts the
`ProjectMaterial` row after validating the project id, and
`stock.createMovement` is ledger `Post`. -/

/-- Modelled from the spec: the backend state the two allocation calls act
on. -/
structure BackendState where
  projectIds : List Int
  projectMaterials : List ProjectMaterialPayload
  ledger : LedgerState

/-- Modelled from the spec: the `POST /projects/:id/materials` transaction —
validates the project exists and inserts the row. -/
def addMaterialTx (s : BackendState) (row : ProjectMaterialPayload) : Option BackendState :=
  if s.projectIds.contains row.project_id then
    some ⟨s.projectIds, row :: s.projectMaterials, s.ledger⟩
  else none

/-- A movement payload as a ledger movement (the payload carries no location;
the backend uses the single default location). -/
def movementOfPayload (p : StockMovementPayload) : StockMovement :=
  ⟨p.material_id, defaultLocation, p.movement_type, p.quantity, defaultLocation⟩

/-- Modelled from the spec: the `POST /stock/movement` transaction — ledger
`Post`, failing without effect when `Post` fails. -/
def createMovementTx (s : BackendState) (p : StockMovementPayload) : Option BackendState :=
  match Post s.ledger (movementOfPayload p) with
  | .ok led => some ⟨s.projectIds, s.projectMaterials, led⟩
  | .error _ => none

/-- The observable backend effect of one allocation submission, mirroring the
two sequential awaits of `allocateMutation.mutationFn` (AllocateMaterialForm.jsx
lines 62-79): if the first call commits and the second fails, the first call's
effect remains.  Returns the resulting state and whether both calls
succeeded. -/
def allocateMutationRun (s : BackendState) (req : AllocRequest) : BackendState × Bool :=
  match addMaterialTx s req.addMaterialBody with
  | none => (s, false)
  | some s1 =>
      match createMovementTx s1 req.movementBody with
      | none => (s1, false)
      | some s2 => (s2, true)

/-! ## Concrete instances used by the witnesses -/

/-- An unreconciled purchase item (the spec section 8 scenario). -/
def itemEx : PurchaseItem := ⟨"Panel 450W", some "SP-450", 10, 500, none⟩

/-- The same item already linked to material 3. -/
def itemLinkedEx : PurchaseItem := ⟨"Panel 450W", some "SP-450", 10, 500, some 3⟩

/-- A material draft with the scenario's SKU. -/
def draftEx : MaterialDraft := ⟨"SP-450", "Panel 450W", 500⟩

/-- A system state with one unreconciled item and an empty catalog. -/
def sysEx : SysState :=
  ⟨fun n => if n = 1 then some itemEx else none, [], 7, emptyLedger⟩

/-- A system state whose item 1 is already reconciled to material 3. -/
def sysLinkedEx : SysState :=
  ⟨fun n => if n = 1 then some itemLinkedEx else none,
   [⟨3, "SP-450", "Panel 450W", 500⟩], 7, emptyLedger⟩

/-- The scenario stock row: material 3, quantity 10, acquisition price 500. -/
def stockItemEx : StockItem := ⟨3, 10, some 500⟩

/-- The same stock row with no acquisition price available. -/
def stockItemNoPrice : StockItem := ⟨3, 10, none⟩

/-- Valid form input: project 1, quantity 4, markup 1.2. -/
def formEx : AllocFormData := ⟨some 1, some 4, some (6 / 5)⟩

/-- Form input whose quantity 25 exceeds the stock quantity 10. -/
def formBigEx : AllocFormData := ⟨some 1, some 25, some (6 / 5)⟩

/-- The request pair produced by submitting `formEx` at acquisition price
500. -/
def reqEx : AllocRequest := allocateMutation stockItemEx 500 [] 1 4 (6 / 5)

/-- The request pair produced at acquisition price 0 (no price available). -/
def reqZeroEx : AllocRequest := allocateMutation stockItemNoPrice 0 [] 1 4 (6 / 5)

/-- A ledger holding 3 units of material 3 at the default location. -/
def ledgerEx : LedgerState :=
  ⟨fun k => if k = ⟨3, 0⟩ then 3 else 0, [(⟨3, 0⟩, 3)]⟩

/-- An `out` movement of 5 units of material 3. -/
def outMovEx : StockMovement := ⟨3, 0, .out_, 5, 0⟩

/-- An `in` movement of 5 units of material 3. -/
def inMovEx : StockMovement := ⟨3, 0, .in_, 5, 0⟩

/-- An `adjustment` movement setting material 3 to 10 units. -/
def adjMovEx : StockMovement := ⟨3, 0, .adjustment, 10, 0⟩

/-- A backend with project 1, no allocations, and an empty ledger. -/
def backendEx : BackendState := ⟨[1], [], emptyLedger⟩

/-- The allocation request of 5 units of material 7 at unit price 600, as
produced by the form when its (stale) stock row still shows 5 units. -/
def reqStaleEx : AllocRequest := allocateMutation ⟨7, 5, some 500⟩ 500 [] 1 5 (6 / 5)

/-- A well-formed invoice document over the modelled tag vocabulary. -/
def invoiceBytesEx : List Nat :=
  bytesOf ("<Supplier>ACME</Supplier><Total>5000</Total><Item>" ++
    "<Description>Panel 450W</Description><Quantity>10</Quantity>" ++
    "<UnitPrice>500</UnitPrice><TotalPrice>5000</TotalPrice></Item>")

/-! ## Theorems -/

theorem journalSum_cons (e : MovementKey × ℚ) (j : List (MovementKey × ℚ)) (k : MovementKey) :
    journalSum (e :: j) k = (if e.1 = k then e.2 else 0) + journalSum j k := rfl

theorem setBal_same (f : MovementKey → ℚ) (k : MovementKey) (v : ℚ) :
    setBal f k v k = v := by
  simp [setBal]

theorem setBal_other (f : MovementKey → ℚ) (k : MovementKey) (v : ℚ) (k2 : MovementKey)
    (h : k2 ≠ k) : setBal f k v k2 = f k2 := by
  simp [setBal, h]

theorem journalSum_cons_same (k : MovementKey) (d : ℚ) (j : List (MovementKey × ℚ)) :
    journalSum ((k, d) :: j) k = d + journalSum j k := by
  simp [journalSum_cons]

theorem journalSum_cons_other (k0 : MovementKey) (d : ℚ) (j : List (MovementKey × ℚ))
    (k : MovementKey) (h : k0 ≠ k) : journalSum ((k0, d) :: j) k = journalSum j k := by
  simp [journalSum_cons, h]

theorem conserves_step (s : LedgerState) (hc : conserves s) (k0 : MovementKey) (v d : ℚ)
    (hd : v = s.balances k0 + d) :
    conserves ⟨setBal s.balances k0 v, (k0, d) :: s.journal⟩ := by
  intro k
  by_cases hk : k = k0
  · subst hk
    show setBal s.balances k v k = journalSum ((k, d) :: s.journal) k
    rw [setBal_same, journalSum_cons_same, hd, hc k]
    ring
  · show setBal s.balances k0 v k = journalSum ((k0, d) :: s.journal) k
    rw [setBal_other _ _ _ _ hk, journalSum_cons_other _ _ _ _ (Ne.symm hk), hc k]

theorem Post_preserves_conserves {s s2 : LedgerState} {m : StockMovement}
    (hc : conserves s) (h : Post s m = .ok s2) : conserves s2 := by
  unfold Post at h
  split at h
  · exact absurd h (by simp)
  · split at h
    · rw [Except.ok.injEq] at h
      subst h
      exact conserves_step s hc _ _ m.quantity rfl
    · split at h
      · exact absurd h (by simp)
      · rw [Except.ok.injEq] at h
        subst h
        exact conserves_step s hc _ _ (-m.quantity) (by ring)
    · rw [Except.ok.injEq] at h
      subst h
      exact conserves_step s hc _ _
        (m.quantity - s.balances ⟨m.material_id, m.location⟩) (by ring)
    · split at h
      · exact absurd h (by simp)
      · rw [Except.ok.injEq] at h
        subst h
        exact conserves_step ⟨_, _⟩
          (conserves_step s hc ⟨m.material_id, m.location⟩ _ (-m.quantity) (by ring))
          ⟨m.material_id, m.to_location⟩ _ m.quantity rfl

theorem postAll_conserves (ms : List StockMovement) :
    ∀ s : LedgerState, conserves s → conserves (postAll s ms) := by
  induction ms with
  | nil => intro s hs; exact hs
  | cons m ms ih =>
      intro s hs
      unfold postAll
      cases h : Post s m with
      | ok s2 => exact ih s2 (Post_preserves_conserves hs h)
      | error e => exact ih s hs

/-- C1. Ledger conservation: for every sequence of `Post` calls starting from
the empty ledger, the derived `Stock.quantity` of every (material, location)
pair equals the signed sum of the effective deltas of the committed movements
for that pair; since the run is quantified over every movement list, the
equality holds after every operation that writes the ledger. -/
theorem ledger_conservation (ms : List StockMovement) (k : MovementKey) :
    (postAll emptyLedger ms).balances k = journalSum (postAll emptyLedger ms).journal k :=
  postAll_conserves ms emptyLedger (fun _ => rfl) k

theorem setBal_nonneg {f : MovementKey → ℚ} (hf : ∀ k, 0 ≤ f k) {k0 : MovementKey} {v : ℚ}
    (hv : 0 ≤ v) : ∀ k, 0 ≤ setBal f k0 v k := by
  intro k
  unfold setBal
  split
  · exact hv
  · exact hf k

theorem Post_preserves_nonneg {s s2 : LedgerState} {m : StockMovement}
    (hn : ∀ k, 0 ≤ s.balances k) (h : Post s m = .ok s2) :
    ∀ k, 0 ≤ s2.balances k := by
  unfold Post at h
  split at h
  · exact absurd h (by simp)
  · rename_i hq
    push_neg at hq
    split at h
    · rw [Except.ok.injEq] at h
      subst h
      exact setBal_nonneg hn
        (add_nonneg (hn ⟨m.material_id, m.location⟩) (le_of_lt hq))
    · split at h
      · exact absurd h (by simp)
      · rename_i hge
        push_neg at hge
        rw [Except.ok.injEq] at h
        subst h
        exact setBal_nonneg hn (by linarith)
    · rw [Except.ok.injEq] at h
      subst h
      exact setBal_nonneg hn (le_of_lt hq)
    · split at h
      · exact absurd h (by simp)
      · rename_i hge
        push_neg at hge
        rw [Except.ok.injEq] at h
        subst h
        exact setBal_nonneg (setBal_nonneg hn (by linarith))
          (add_nonneg (setBal_nonneg hn (by linarith) ⟨m.material_id, m.to_location⟩)
            (le_of_lt hq))

theorem postAll_nonneg (ms : List StockMovement) :
    ∀ s : LedgerState, (∀ k, 0 ≤ s.balances k) → ∀ k, 0 ≤ (postAll s ms).balances k := by
  induction ms with
  | nil => intro s hs; exact hs
  | cons m ms ih =>
      intro s hs
      unfold postAll
      cases h : Post s m with
      | ok s2 => exact ih s2 (Post_preserves_nonneg hs h)
      | error e => exact ih s hs

/-- C2. No negative stock: an `out` (or the debit half of a `transfer`) whose
quantity exceeds the current balance of its (material, location) pair fails
with `InsufficientStock` and leaves the ledger unchanged; the frontend's
`onSubmit` likewise rejects an allocation quantity exceeding the stock row
(AllocateMaterialForm.jsx lines 106-109); consequently every balance reachable
from the empty ledger stays non-negative. -/
theorem no_negative_stock :
    (∀ (s : LedgerState) (m : StockMovement),
        (m.movement_type = .out_ ∨ m.movement_type = .transfer) →
        0 < m.quantity →
        s.balances ⟨m.material_id, m.location⟩ < m.quantity →
        Post s m = .error .insufficientStock ∧ postAll s [m] = s) ∧
    (∀ (si : StockItem) (ap : ℚ) (ps : List Project) (d : AllocFormData)
        (pid : Int) (q : ℚ),
        d.project_id = some pid → 0 < pid → d.quantity = some q → 0 < q →
        si.quantity < q →
        onSubmit si ap ps d = .rejected "Insufficient stock available") ∧
    (∀ (ms : List StockMovement) (k : MovementKey),
        0 ≤ (postAll emptyLedger ms).balances k) := by
  refine ⟨?_, ?_, ?_⟩
  · intro s m hmt hq hlt
    have hpost : Post s m = .error .insufficientStock := by
      rcases hmt with h | h <;>
        simp [Post, h, hlt, not_le.mpr hq]
    refine ⟨hpost, ?_⟩
    unfold postAll
    rw [hpost]
    rfl
  · intro si ap ps d pid q h1 hpid h2 hq hlt
    simp [onSubmit, h1, h2, not_le.mpr hpid, not_le.mpr hq, hlt]
  · intro ms k
    exact postAll_nonneg ms emptyLedger (fun _ => le_refl 0) k

theorem no_negative_stock_witness :
    (Post ledgerEx outMovEx = .error .insufficientStock ∧
       postAll ledgerEx [outMovEx] = ledgerEx) ∧
    onSubmit stockItemEx 500 [] formBigEx = .rejected "Insufficient stock available" ∧
    0 ≤ (postAll emptyLedger [inMovEx]).balances ⟨3, 0⟩ :=
  ⟨no_negative_stock.1 ledgerEx outMovEx (Or.inl rfl) (by norm_num [outMovEx])
      (by show ledgerEx.balances ⟨3, 0⟩ < (5 : ℚ); simp [ledgerEx]; norm_num),
   no_negative_stock.2.1 stockItemEx 500 [] formBigEx 1 25 rfl (by norm_num) rfl
      (by norm_num) (by show (10 : ℚ) < 25; norm_num),
   no_negative_stock.2.2 [inMovEx] ⟨3, 0⟩⟩

/-- C7. An `adjustment` movement with target value `v` posted against a pair
whose current balance is `b` succeeds, sets the derived `Stock.quantity` to
`v`, journals the delta actually applied (`v - b`) rather than the target
value, and preserves ledger conservation. -/
theorem adjustment_records_delta :
    ∀ (s : LedgerState) (m : StockMovement),
      m.movement_type = .adjustment → 0 < m.quantity →
      ∃ s2, Post s m = .ok s2 ∧
        s2.balances ⟨m.material_id, m.location⟩ = m.quantity ∧
        s2.journal = (⟨m.material_id, m.location⟩,
                      m.quantity - s.balances ⟨m.material_id, m.location⟩) :: s.journal ∧
        (conserves s → conserves s2) := by
  intro s m hmt hq
  refine ⟨⟨setBal s.balances ⟨m.material_id, m.location⟩ m.quantity,
           (⟨m.material_id, m.location⟩,
            m.quantity - s.balances ⟨m.material_id, m.location⟩) :: s.journal⟩,
          ?_, ?_, rfl, ?_⟩
  · unfold Post
    rw [hmt, if_neg (not_le.mpr hq)]
  · exact setBal_same _ _ _
  · intro hc
    exact conserves_step s hc _ _ _ (by ring)

theorem adjustment_records_delta_witness :
    ∃ s2, Post ledgerEx adjMovEx = .ok s2 ∧
      s2.balances ⟨3, 0⟩ = 10 ∧
      s2.journal = (⟨3, 0⟩, 10 - ledgerEx.balances ⟨3, 0⟩) :: ledgerEx.journal ∧
      (conserves ledgerEx → conserves s2) :=
  adjustment_records_delta ledgerEx adjMovEx rfl (by norm_num [adjMovEx])

/-- C3. Reconciliation seeds correctly: `CreateAndLink` on an unreconciled
item of quantity `q` with a fresh SKU succeeds, produces a new material whose
stock balance equals `q` (not zero), sets `PurchaseItem.material_id` to the
new material, and journals exactly one `in` movement of quantity `q`. -/
theorem create_and_link_seeds_stock :
    ∀ (s : SysState) (itemId : Nat) (it : PurchaseItem) (draft : MaterialDraft),
      s.items itemId = some it → it.material_id = none → 0 < it.quantity →
      s.materials.any (fun m => m.sku = draft.sku) = false →
      s.ledger.balances ⟨s.nextMaterialId, defaultLocation⟩ = 0 →
      ∃ s2, CreateAndLink s itemId draft = .ok (s2, s.nextMaterialId) ∧
        s2.ledger.balances ⟨s.nextMaterialId, defaultLocation⟩ = it.quantity ∧
        (s2.items itemId).map PurchaseItem.material_id = some (some s.nextMaterialId) ∧
        s2.ledger.journal =
          (⟨s.nextMaterialId, defaultLocation⟩, it.quantity) :: s.ledger.journal := by
  intro s itemId it draft hitem hmid hq hsku hbal
  have hpost : Post s.ledger
      ⟨s.nextMaterialId, defaultLocation, .in_, it.quantity, defaultLocation⟩
      = .ok ⟨setBal s.ledger.balances ⟨s.nextMaterialId, defaultLocation⟩
               (s.ledger.balances ⟨s.nextMaterialId, defaultLocation⟩ + it.quantity),
             (⟨s.nextMaterialId, defaultLocation⟩, it.quantity) :: s.ledger.journal⟩ := by
    unfold Post
    rw [if_neg (not_le.mpr hq)]
  refine ⟨⟨setItem s.items itemId { it with material_id := some s.nextMaterialId },
           s.materials ++ [⟨s.nextMaterialId, draft.sku, draft.name, draft.unit_price⟩],
           s.nextMaterialId + 1,
           ⟨setBal s.ledger.balances ⟨s.nextMaterialId, defaultLocation⟩
              (s.ledger.balances ⟨s.nextMaterialId, defaultLocation⟩ + it.quantity),
            (⟨s.nextMaterialId, defaultLocation⟩, it.quantity) :: s.ledger.journal⟩⟩,
          ?_, ?_, ?_, rfl⟩
  · simp [CreateAndLink, hitem, hmid, hsku, hpost]
  · show setBal s.ledger.balances ⟨s.nextMaterialId, defaultLocation⟩
      (s.ledger.balances ⟨s.nextMaterialId, defaultLocation⟩ + it.quantity)
      ⟨s.nextMaterialId, defaultLocation⟩ = it.quantity
    rw [setBal_same, hbal, zero_add]
  · show ((setItem s.items itemId { it with material_id := some s.nextMaterialId })
      itemId).map PurchaseItem.material_id = some (some s.nextMaterialId)
    unfold setItem
    rw [if_pos rfl]
    rfl

theorem create_and_link_seeds_stock_witness :
    ∃ s2, CreateAndLink sysEx 1 draftEx = .ok (s2, 7) ∧
      s2.ledger.balances ⟨7, defaultLocation⟩ = 10 ∧
      (s2.items 1).map PurchaseItem.material_id = some (some 7) ∧
      s2.ledger.journal = (⟨7, defaultLocation⟩, (10 : ℚ)) :: [] :=
  create_and_link_seeds_stock sysEx 1 itemEx draftEx rfl rfl (by norm_num [itemEx]) rfl rfl

theorem stepOp_preserves_material_id (s : SysState) (i mId : Nat) (op : SysOp)
    (h : (s.items i).map PurchaseItem.material_id = some (some mId)) :
    ((stepOp s op).items i).map PurchaseItem.material_id = some (some mId) := by
  obtain ⟨it, hit, hmid⟩ : ∃ it, s.items i = some it ∧ it.material_id = some mId := by
    cases hsi : s.items i with
    | none => rw [hsi] at h; simp at h
    | some it =>
        rw [hsi] at h
        simp at h
        exact ⟨it, rfl, h⟩
  cases op with
  | link itemId matId =>
      simp only [stepOp]
      cases hL : LinkExisting s itemId matId with
      | error e => exact h
      | ok s2 =>
          unfold LinkExisting at hL
          split at hL
          · exact absurd hL (by simp)
          · rename_i itj hj
            split at hL
            · exact absurd hL (by simp)
            · rename_i hns
              split at hL
              · exact absurd hL (by simp)
              · split at hL
                · exact absurd hL (by simp)
                · rw [Except.ok.injEq] at hL
                  rw [← hL]
                  show ((setItem s.items itemId
                    { itj with material_id := some matId }) i).map
                      PurchaseItem.material_id = some (some mId)
                  unfold setItem
                  by_cases hii : i = itemId
                  · subst hii
                    rw [hit] at hj
                    injection hj with hj2
                    have hsj : itj.material_id.isSome = true := by
                      rw [← hj2, hmid]
                      rfl
                    exact absurd hsj hns
                  · rw [if_neg hii, hit]
                    simp [hmid]
  | createLink itemId draft =>
      simp only [stepOp]
      cases hL : CreateAndLink s itemId draft with
      | error e => exact h
      | ok r =>
          unfold CreateAndLink at hL
          split at hL
          · exact absurd hL (by simp)
          · rename_i itj hj
            split at hL
            · exact absurd hL (by simp)
            · rename_i hns
              split at hL
              · exact absurd hL (by simp)
              · split at hL
                · exact absurd hL (by simp)
                · rw [Except.ok.injEq] at hL
                  rw [← hL]
                  show ((setItem s.items itemId
                    { itj with material_id := some s.nextMaterialId }) i).map
                      PurchaseItem.material_id = some (some mId)
                  unfold setItem
                  by_cases hii : i = itemId
                  · subst hii
                    rw [hit] at hj
                    injection hj with hj2
                    have hsj : itj.material_id.isSome = true := by
                      rw [← hj2, hmid]
                      rfl
                    exact absurd hsj hns
                  · rw [if_neg hii, hit]
                    simp [hmid]
  | postMovement mv =>
      simp only [stepOp]
      cases hP : Post s.ledger mv with
      | ok led => exact h
      | error e => exact h

theorem runOps_preserves_material_id (ops : List SysOp) :
    ∀ (s : SysState) (i mId : Nat),
      (s.items i).map PurchaseItem.material_id = some (some mId) →
      ((runOps s ops).items i).map PurchaseItem.material_id = some (some mId) := by
  induction ops with
  | nil => intro s i mId h; exact h
  | cons op ops ih =>
      intro s i mId h
      exact ih (stepOp s op) i mId (stepOp_preserves_material_id s i mId op h)

/-- C4. Double reconciliation rejected: on an item whose `material_id` is
already set, both `LinkExisting` and `CreateAndLink` fail with
`AlreadyReconciled` while leaving the state — including the movement journal
and the item's `material_id` — unchanged; and over any sequence of link,
create-and-link and post operations, an item's `material_id`, once set, never
changes, so it is set at most once. -/
theorem double_reconciliation_rejected :
    (∀ (s : SysState) (itemId : Nat) (it : PurchaseItem) (matId : Nat)
        (draft : MaterialDraft),
        s.items itemId = some it → it.material_id.isSome = true →
        LinkExisting s itemId matId = .error .alreadyReconciled ∧
        CreateAndLink s itemId draft = .error .alreadyReconciled ∧
        stepOp s (.link itemId matId) = s ∧
        stepOp s (.createLink itemId draft) = s) ∧
    (∀ (s : SysState) (i mId : Nat) (ops : List SysOp),
        (s.items i).map PurchaseItem.material_id = some (some mId) →
        ((runOps s ops).items i).map PurchaseItem.material_id = some (some mId)) := by
  constructor
  · intro s itemId it matId draft hitem hsome
    have h1 : LinkExisting s itemId matId = .error .alreadyReconciled := by
      simp [LinkExisting, hitem, hsome]
    have h2 : CreateAndLink s itemId draft = .error .alreadyReconciled := by
      simp [CreateAndLink, hitem, hsome]
    refine ⟨h1, h2, ?_, ?_⟩
    · simp only [stepOp]
      rw [h1]
    · simp only [stepOp]
      rw [h2]
  · intro s i mId ops h
    exact runOps_preserves_material_id ops s i mId h

theorem double_reconciliation_rejected_witness :
    (LinkExisting sysLinkedEx 1 3 = .error .alreadyReconciled ∧
     CreateAndLink sysLinkedEx 1 draftEx = .error .alreadyReconciled ∧
     stepOp sysLinkedEx (.link 1 3) = sysLinkedEx ∧
     stepOp sysLinkedEx (.createLink 1 draftEx) = sysLinkedEx) ∧
    ((runOps sysLinkedEx [.link 1 3, .createLink 1 draftEx]).items 1).map
      PurchaseItem.material_id = some (some 3) :=
  ⟨double_reconciliation_rejected.1 sysLinkedEx 1 itemLinkedEx 3 draftEx rfl rfl,
   double_reconciliation_rejected.2 sysLinkedEx 1 3 [.link 1 3, .createLink 1 draftEx] rfl⟩

theorem onSubmit_formEx_eq : onSubmit stockItemEx 500 [] formEx = .submitted reqEx := by
  norm_num [onSubmit, formEx, stockItemEx, reqEx]

theorem onSubmit_zero_price_eq :
    onSubmit stockItemNoPrice (acquisitionPrice stockItemNoPrice.acquisition_price none)
      [] formEx = .submitted reqZeroEx := by
  norm_num [onSubmit, formEx, stockItemNoPrice, reqZeroEx, acquisitionPrice, jsNumOr]

theorem onSubmit_submitted {si : StockItem} {ap : ℚ} {ps : List Project}
    {d : AllocFormData} {req : AllocRequest}
    (h : onSubmit si ap ps d = .submitted req) :
    ∃ pid q mk, d.project_id = some pid ∧ d.quantity = some q ∧
      d.commercial_markup = some mk ∧ 0 < pid ∧ 0 < q ∧ q ≤ si.quantity ∧ 0 < mk ∧
      req = allocateMutation si ap ps pid q mk := by
  unfold onSubmit at h
  split at h
  · exact absurd h (by simp)
  · rename_i pid hpid
    split at h
    · exact absurd h (by simp)
    · rename_i hple
      split at h
      · exact absurd h (by simp)
      · rename_i q hq
        split at h
        · exact absurd h (by simp)
        · rename_i hqle
          split at h
          · exact absurd h (by simp)
          · rename_i hlt
            split at h
            · exact absurd h (by simp)
            · rename_i mk hmk
              split at h
              · exact absurd h (by simp)
              · rename_i hmkle
                rw [SubmitResult.submitted.injEq] at h
                exact ⟨pid, q, mk, hpid, hq, hmk, not_le.mp hple, not_le.mp hqle,
                       not_lt.mp hlt, not_le.mp hmkle, h.symm⟩

/-- C5. Allocation pricing: whenever the allocation form submits, the markup
was validated positive and the submitted `ProjectMaterial.unit_price` equals
`acquisition price * markup`, recomputed from the current inputs of that call;
in particular acquisition price 500 with markup 1.2 submits unit price 600
together with one `out` movement of the allocated quantity 4. -/
theorem allocation_markup_price :
    (∀ (si : StockItem) (ap : ℚ) (ps : List Project) (d : AllocFormData)
        (req : AllocRequest),
        onSubmit si ap ps d = .submitted req →
        ∃ mk, d.commercial_markup = some mk ∧ 0 < mk ∧
          req.addMaterialBody.unit_price = ap * mk) ∧
    (onSubmit stockItemEx 500 [] formEx = .submitted reqEx ∧
     reqEx.addMaterialBody.unit_price = 600 ∧
     reqEx.movementBody.movement_type = .out_ ∧
     reqEx.movementBody.quantity = 4) := by
  constructor
  · intro si ap ps d req h
    obtain ⟨pid, q, mk, hpid, hq, hmk, hpidpos, hqpos, hqle, hmkpos, hreq⟩ :=
      onSubmit_submitted h
    refine ⟨mk, hmk, hmkpos, ?_⟩
    subst hreq
    rfl
  · refine ⟨onSubmit_formEx_eq, ?_, rfl, rfl⟩
    show (500 : ℚ) * (6 / 5) = 600
    norm_num

theorem allocation_markup_price_witness :
    ∃ mk, formEx.commercial_markup = some mk ∧ 0 < mk ∧
      reqEx.addMaterialBody.unit_price = 500 * mk :=
  allocation_markup_price.1 stockItemEx 500 [] formEx reqEx onSubmit_formEx_eq

/-- C9. Allocation creates the project-material row with `quantity_used = 0`
and `quantity_planned` equal to the requested allocation quantity; the form
never records usage at creation time. -/
theorem allocation_quantities :
    ∀ (si : StockItem) (ap : ℚ) (ps : List Project) (d : AllocFormData)
      (req : AllocRequest),
      onSubmit si ap ps d = .submitted req →
      req.addMaterialBody.quantity_used = 0 ∧
      ∃ q, d.quantity = some q ∧ req.addMaterialBody.quantity_planned = q := by
  intro si ap ps d req h
  obtain ⟨pid, q, mk, hpid, hq, hmk, hpidpos, hqpos, hqle, hmkpos, hreq⟩ :=
    onSubmit_submitted h
  subst hreq
  exact ⟨rfl, q, hq, rfl⟩

theorem allocation_quantities_witness :
    reqEx.addMaterialBody.quantity_used = 0 ∧
    ∃ q, formEx.quantity = some q ∧ reqEx.addMaterialBody.quantity_planned = q :=
  allocation_quantities stockItemEx 500 [] formEx reqEx onSubmit_formEx_eq

/-- C10. Acquisition-price fallback: with no `acquisition_price` on the stock
row the form falls back to the material's `unit_price`, and with neither
available it falls back to 0; such a zero price is not rejected — the form
submits an allocation whose commercial `unit_price` is 0. -/
theorem acquisition_price_fallback :
    (∀ mu : ℚ, acquisitionPrice none (some mu) = mu) ∧
    acquisitionPrice none none = 0 ∧
    onSubmit stockItemNoPrice (acquisitionPrice stockItemNoPrice.acquisition_price none)
      [] formEx = .submitted reqZeroEx ∧
    reqZeroEx.addMaterialBody.unit_price = 0 := by
  refine ⟨?_, rfl, onSubmit_zero_price_eq, ?_⟩
  case refine_2 =>
    show (0 : ℚ) * (6 / 5) = 0
    norm_num
  intro mu
  unfold acquisitionPrice jsNumOr
  by_cases h : mu = 0
  · simp [h]
  · simp [h]

/-- C8. Parser determinism: the invoice parser is a pure function of the input
bytes — identical input bytes always produce identical output (a
`ParsedInvoice` or a `ParseError`); the model performs no I/O and takes no
state. -/
theorem parser_deterministic :
    ∀ b1 b2 : List Nat, b1 = b2 → parseInvoice b1 = parseInvoice b2 := by
  intro b1 b2 h
  rw [h]

theorem parser_deterministic_witness :
    parseInvoice invoiceBytesEx = parseInvoice invoiceBytesEx :=
  parser_deterministic invoiceBytesEx invoiceBytesEx rfl

/-- C6. The allocation submission is two sequential backend transactions, not
one: evaluated at a concrete request (5 units of material 7 against a backend
whose ledger balance for material 7 is 0, the form's stock row being stale),
the first call commits the `ProjectMaterial` row, the second call fails, and
the resulting observable state holds the new `ProjectMaterial` with no `out`
movement journalled — partial state, contradicting the claimed all-or-nothing
transactionality. -/
theorem allocation_two_calls_partial_state :
    (allocateMutationRun backendEx reqStaleEx).2 = false ∧
    (allocateMutationRun backendEx reqStaleEx).1.projectMaterials =
      [reqStaleEx.addMaterialBody] ∧
    (allocateMutationRun backendEx reqStaleEx).1.projectMaterials ≠
      backendEx.projectMaterials ∧
    (allocateMutationRun backendEx reqStaleEx).1.ledger.journal = [] := by
  refine ⟨rfl, rfl, by decide, rfl⟩

end SolarApp
